import Mathlib

/-!
Verification of the channel funding manager (`fundingmanager.go`) of the
repository against its natural-language specification.  The Go code is
shallowly embedded: byte slices become `List Nat` (each element a byte),
machine integers become `Nat`/`Int` with explicit `% 2 ^ w` where overflow
matters, the bolt-style key/value store becomes an association list, and
fallible operations return `Except`/`Option`.
-/

namespace FundingManager

/-- Byte strings are lists of naturals; each entry is intended to be `< 256`. -/
abbrev Bytes := List Nat

/-- Embedding of `byteOrder.PutUint16 scratch n`.

Modelled from the spec: the `byteOrder` variable used by
`saveChannelOpeningState` is declared outside the files available under
`src/`.  The source writes both the 2-byte state field and the 8-byte
short-channel-id field with this single `byteOrder`, and the spec (§6)
states that the 8-byte packed short channel id is big-endian, so
`byteOrder` is big-endian. -/
def byteOrderPutUint16 (n : Nat) : Bytes :=
  [n / 2 ^ 8 % 2 ^ 8, n % 2 ^ 8]

/-- Embedding of `byteOrder.PutUint32 scratch n` (big-endian, see
`byteOrderPutUint16`). -/
def byteOrderPutUint32 (n : Nat) : Bytes :=
  [n / 2 ^ 24 % 2 ^ 8, n / 2 ^ 16 % 2 ^ 8, n / 2 ^ 8 % 2 ^ 8, n % 2 ^ 8]

/-- Embedding of `byteOrder.PutUint64 scratch n` (big-endian, see
`byteOrderPutUint16`). -/
def byteOrderPutUint64 (n : Nat) : Bytes :=
  [n / 2 ^ 56 % 2 ^ 8, n / 2 ^ 48 % 2 ^ 8, n / 2 ^ 40 % 2 ^ 8,
   n / 2 ^ 32 % 2 ^ 8, n / 2 ^ 24 % 2 ^ 8, n / 2 ^ 16 % 2 ^ 8,
   n / 2 ^ 8 % 2 ^ 8, n % 2 ^ 8]

/-- Embedding of `byteOrder.Uint16 value` (reads the first two bytes,
big-endian). -/
def byteOrderUint16 (b : Bytes) : Nat :=
  match b with
  | b0 :: b1 :: _ => b0 * 2 ^ 8 + b1
  | _ => 0

/-- Embedding of `byteOrder.Uint64 value` (reads the first eight bytes,
big-endian). -/
def byteOrderUint64 (b : Bytes) : Nat :=
  match b with
  | b0 :: b1 :: b2 :: b3 :: b4 :: b5 :: b6 :: b7 :: _ =>
      b0 * 2 ^ 56 + b1 * 2 ^ 48 + b2 * 2 ^ 40 + b3 * 2 ^ 32 +
      b4 * 2 ^ 24 + b5 * 2 ^ 16 + b6 * 2 ^ 8 + b7
  | _ => 0

/-- Little-endian 4-byte encoding, used for the outpoint index inside the
store key (see `writeOutpointBytes`). -/
def putUint32LE (n : Nat) : Bytes :=
  [n % 2 ^ 8, n / 2 ^ 8 % 2 ^ 8, n / 2 ^ 16 % 2 ^ 8, n / 2 ^ 24 % 2 ^ 8]

/-- Specification-side big-endian byte string of width `w` (most significant
byte first), written independently of the scratch-buffer embedding above so
that layout claims compare two distinct formulations. -/
def beBytes : Nat → Nat → Bytes
  | 0, _ => []
  | w + 1, n => beBytes w (n / 2 ^ 8) ++ [n % 2 ^ 8]

/-- Specification-side little-endian byte string of width `w` (least
significant byte first). -/
def leBytes : Nat → Nat → Bytes
  | 0, _ => []
  | w + 1, n => n % 2 ^ 8 :: leBytes w (n / 2 ^ 8)

/-- Specification-side little-endian 2-byte encoding; this is the layout the
spec asserts for the state ordinal inside a `channelOpeningState` record. -/
def putUint16LE (n : Nat) : Bytes :=
  [n % 2 ^ 8, n / 2 ^ 8 % 2 ^ 8]

theorem beBytes_two (n : Nat) : beBytes 2 n = byteOrderPutUint16 n := by
  simp [beBytes, byteOrderPutUint16, Nat.div_div_eq_div_mul]

theorem beBytes_eight (n : Nat) : beBytes 8 n = byteOrderPutUint64 n := by
  simp only [beBytes, byteOrderPutUint64, Nat.div_div_eq_div_mul]
  norm_num

theorem leBytes_four (n : Nat) : leBytes 4 n = putUint32LE n := by
  simp only [leBytes, putUint32LE, Nat.div_div_eq_div_mul]
  norm_num

theorem byteOrderUint16_put (n : Nat) :
    byteOrderUint16 (byteOrderPutUint16 n) = n % 2 ^ 16 := by
  simp [byteOrderUint16, byteOrderPutUint16]
  omega

theorem byteOrderUint64_put (n : Nat) (h : n < 2 ^ 64) :
    byteOrderUint64 (byteOrderPutUint64 n) = n := by
  simp [byteOrderUint64, byteOrderPutUint64]
  omega

theorem putUint32LE_inj (m n : Nat) (hm : m < 2 ^ 32) (hn : n < 2 ^ 32)
    (h : putUint32LE m = putUint32LE n) : m = n := by
  simp [putUint32LE] at h
  omega

/-- Embedding of `wire.OutPoint`: a 32-byte transaction hash together with a
32-bit output index. -/
structure OutPoint where
  hash : Bytes
  index : Nat
deriving DecidableEq, Repr

/-- Well-formedness of an outpoint: the hash is exactly 32 bytes and the
index fits in a `uint32`. -/
def OutPoint.wf (o : OutPoint) : Prop :=
  o.hash.length = 32 ∧ o.index < 2 ^ 32

instance (o : OutPoint) : Decidable o.wf := by
  unfold OutPoint.wf; infer_instance

/-- Embedding of `writeOutpoint(&outpointBytes, chanPoint)`.

Modelled from the spec: the helper `writeOutpoint` is declared outside the
files available under `src/`; this repository's spec (§6) describes the key
as the canonical serialised outpoint, a 32-byte hash followed by the 4-byte
little-endian output index. -/
def writeOutpointBytes (o : OutPoint) : Bytes :=
  o.hash ++ putUint32LE o.index

theorem writeOutpointBytes_inj (o o' : OutPoint) (ho : o.wf) (ho' : o'.wf)
    (h : writeOutpointBytes o = writeOutpointBytes o') : o = o' := by
  unfold writeOutpointBytes at h
  have hlen : o.hash.length = o'.hash.length := by
    rw [ho.1, ho'.1]
  have := List.append_inj h hlen
  obtain ⟨h1, h2⟩ := this
  cases o; cases o'
  simp only [OutPoint.mk.injEq]
  exact ⟨h1, putUint32LE_inj _ _ ho.2 ho'.2 h2⟩

/-- Embedding of `lnwire.ShortChannelID`.

Modelled from the spec: the `lnwire` package is not among the files under
`src/`; the spec (§3, Glossary) describes a short channel id as the triple
(block height, tx index within block, output index within tx) packed into
eight bytes. -/
structure ShortChannelID where
  blockHeight : Nat
  txIndex : Nat
  txPosition : Nat
deriving DecidableEq, Repr

/-- Valid short channel ids carry 24-bit block height, 24-bit tx index and
16-bit output position. -/
def ShortChannelID.valid (s : ShortChannelID) : Prop :=
  s.blockHeight < 2 ^ 24 ∧ s.txIndex < 2 ^ 24 ∧ s.txPosition < 2 ^ 16

instance (s : ShortChannelID) : Decidable s.valid := by
  unfold ShortChannelID.valid; infer_instance

/-- Embedding of `ShortChannelID.ToUint64`.

Modelled from the spec: packs (block height, tx index, output position) into
a single 64-bit integer, height in the top 24 bits, tx index in the middle
24 bits, position in the low 16 bits. -/
def ShortChannelID.toUint64 (s : ShortChannelID) : Nat :=
  s.blockHeight % 2 ^ 24 * 2 ^ 40 + s.txIndex % 2 ^ 24 * 2 ^ 16 +
    s.txPosition % 2 ^ 16

/-- Embedding of `lnwire.NewShortChanIDFromInt`.

Modelled from the spec: unpacks the 64-bit representation produced by
`ShortChannelID.toUint64`. -/
def NewShortChanIDFromInt (n : Nat) : ShortChannelID :=
  { blockHeight := n / 2 ^ 40 % 2 ^ 24
    txIndex := n / 2 ^ 16 % 2 ^ 24
    txPosition := n % 2 ^ 16 }

theorem toUint64_lt (s : ShortChannelID) : s.toUint64 < 2 ^ 64 := by
  unfold ShortChannelID.toUint64
  have h1 : s.blockHeight % 2 ^ 24 < 2 ^ 24 := Nat.mod_lt _ (by norm_num)
  have h2 : s.txIndex % 2 ^ 24 < 2 ^ 24 := Nat.mod_lt _ (by norm_num)
  have h3 : s.txPosition % 2 ^ 16 < 2 ^ 16 := Nat.mod_lt _ (by norm_num)
  omega

theorem shortChanID_roundtrip (s : ShortChannelID) (hs : s.valid) :
    NewShortChanIDFromInt s.toUint64 = s := by
  obtain ⟨h1, h2, h3⟩ := hs
  unfold NewShortChanIDFromInt ShortChannelID.toUint64
  cases s
  simp only [ShortChannelID.mk.injEq]
  simp only at h1 h2 h3 ⊢
  omega

/-- A bolt-style bucket: an association list from key bytes to value bytes.
`bucketPut` overwrites an existing binding, as `bucket.Put` does. -/
abbrev Bucket := List (Bytes × Bytes)

/-- Embedding of `bucket.Put(key, value)`. -/
def bucketPut (b : Bucket) (k v : Bytes) : Bucket :=
  match b with
  | [] => [(k, v)]
  | (k0, v0) :: rest =>
      if k0 = k then (k, v) :: rest else (k0, v0) :: bucketPut rest k v

/-- Embedding of `bucket.Get(key)`: `none` plays the role of a nil slice. -/
def bucketGet (b : Bucket) (k : Bytes) : Option Bytes :=
  match b with
  | [] => none
  | (k0, v0) :: rest => if k0 = k then some v0 else bucketGet rest k

/-- Embedding of `bucket.Delete(key)`: removes the binding for `k`. -/
def bucketDelete (b : Bucket) (k : Bytes) : Bucket :=
  match b with
  | [] => []
  | (k0, v0) :: rest =>
      if k0 = k then bucketDelete rest k else (k0, v0) :: bucketDelete rest k

/-- The database holding the `channelOpeningState` top-level bucket; `none`
means the bucket has never been created. -/
abbrev Db := Option Bucket

/-- Reads a key through the optional bucket, mirroring
`tx.ReadBucket(channelOpeningStateBucket)` followed by `bucket.Get`. -/
def bucketGetDb (db : Db) (k : Bytes) : Option Bytes :=
  match db with
  | none => none
  | some b => bucketGet b k

/-- Errors surfaced by the opening-state store. -/
inductive StoreErr where
  | channelNotFound
  | bucketNotFound
deriving DecidableEq, Repr

/-- Opening state `markedOpen` (ordinal 0 of `channelOpeningState`). -/
def markedOpen : Nat := 0

/-- Opening state `fundingLockedSent` (ordinal 1 of `channelOpeningState`). -/
def fundingLockedSent : Nat := 1

/-- Opening state `addedToRouterGraph` (ordinal 2 of `channelOpeningState`). -/
def addedToRouterGraph : Nat := 2

/-- Embedding of `fundingManager.saveChannelOpeningState`: creates the
top-level bucket when absent, then stores the 10-byte scratch buffer
(`PutUint16` of the state, `PutUint64` of the packed short channel id) under
the serialised outpoint. -/
def saveChannelOpeningState (db : Db) (o : OutPoint) (state : Nat)
    (scid : ShortChannelID) : Db :=
  let bucket := db.getD []
  let scratch := byteOrderPutUint16 state ++ byteOrderPutUint64 scid.toUint64
  some (bucketPut bucket (writeOutpointBytes o) scratch)

/-- Embedding of `fundingManager.getChannelOpeningState`: returns
`ErrChannelNotFound` when the bucket or the record is missing, otherwise
decodes the state from the first two bytes (the Go code truncates the
decoded `uint16` to the `uint8`-backed `channelOpeningState`) and the short
channel id from the remaining eight. -/
def getChannelOpeningState (db : Db) (o : OutPoint) :
    Except StoreErr (Nat × ShortChannelID) :=
  match db with
  | none => .error .channelNotFound
  | some bucket =>
      match bucketGet bucket (writeOutpointBytes o) with
      | none => .error .channelNotFound
      | some value =>
          .ok (byteOrderUint16 value % 2 ^ 8,
               NewShortChanIDFromInt (byteOrderUint64 (value.drop 2)))

/-- Embedding of `fundingManager.deleteChannelOpeningState`: errors when the
bucket does not exist, otherwise removes the record for the outpoint. -/
def deleteChannelOpeningState (db : Db) (o : OutPoint) : Except StoreErr Db :=
  match db with
  | none => .error .bucketNotFound
  | some bucket => .ok (some (bucketDelete bucket (writeOutpointBytes o)))

/-- An operation against the opening-state store, used to speak about what
happens between a save and a later read. -/
inductive StoreOp where
  | save (o : OutPoint) (state : Nat) (scid : ShortChannelID)
  | del (o : OutPoint)

/-- The outpoint an operation touches. -/
def StoreOp.point : StoreOp → OutPoint
  | .save o _ _ => o
  | .del o => o

/-- Runs one store operation (a failed delete leaves the database as is). -/
def applyOp (db : Db) : StoreOp → Db
  | .save o st scid => saveChannelOpeningState db o st scid
  | .del o =>
      match deleteChannelOpeningState db o with
      | .ok db2 => db2
      | .error _ => db

/-- Runs a sequence of store operations in order. -/
def applyOps (db : Db) (ops : List StoreOp) : Db := ops.foldl applyOp db

theorem bucketGet_put_self (b : Bucket) (k v : Bytes) :
    bucketGet (bucketPut b k v) k = some v := by
  induction b with
  | nil => simp [bucketPut, bucketGet]
  | cons hd tl ih =>
      obtain ⟨k0, v0⟩ := hd
      by_cases hk : k0 = k
      · simp [bucketPut, bucketGet, hk]
      · simp [bucketPut, bucketGet, hk, ih]

theorem bucketGet_put_other (b : Bucket) (k k' v : Bytes) (h : k' ≠ k) :
    bucketGet (bucketPut b k' v) k = bucketGet b k := by
  induction b with
  | nil => simp [bucketPut, bucketGet, h]
  | cons hd tl ih =>
      obtain ⟨k0, v0⟩ := hd
      by_cases hk : k0 = k'
      · subst hk
        simp [bucketPut, bucketGet, h]
      · by_cases hk2 : k0 = k
        · subst hk2
          simp [bucketPut, bucketGet, hk]
        · simp [bucketPut, bucketGet, hk, hk2, ih]

theorem bucketGet_delete_self (b : Bucket) (k : Bytes) :
    bucketGet (bucketDelete b k) k = none := by
  induction b with
  | nil => simp [bucketDelete, bucketGet]
  | cons hd tl ih =>
      obtain ⟨k0, v0⟩ := hd
      by_cases hk : k0 = k
      · simpa [bucketDelete, bucketGet, hk] using ih
      · simpa [bucketDelete, bucketGet, hk] using ih

theorem bucketGet_delete_other (b : Bucket) (k k' : Bytes) (h : k' ≠ k) :
    bucketGet (bucketDelete b k') k = bucketGet b k := by
  induction b with
  | nil => simp [bucketDelete, bucketGet]
  | cons hd tl ih =>
      obtain ⟨k0, v0⟩ := hd
      by_cases hk : k0 = k'
      · subst hk
        simp [bucketDelete, bucketGet, h, ih]
      · by_cases hk2 : k0 = k
        · subst hk2
          simp [bucketDelete, bucketGet, hk]
        · simp [bucketDelete, bucketGet, hk, hk2, ih]

theorem bucketGetDb_getD (db : Db) (k : Bytes) :
    bucketGet (db.getD []) k = bucketGetDb db k := by
  cases db <;> rfl

theorem applyOp_preserves (db : Db) (op : StoreOp) (k : Bytes)
    (h : k ≠ writeOutpointBytes op.point) :
    bucketGetDb (applyOp db op) k = bucketGetDb db k := by
  cases op with
  | save o st scid =>
      simp only [StoreOp.point] at h
      show bucketGetDb (saveChannelOpeningState db o st scid) k = bucketGetDb db k
      unfold saveChannelOpeningState
      show bucketGet (bucketPut (db.getD []) _ _) k = bucketGetDb db k
      rw [bucketGet_put_other _ _ _ _ (Ne.symm h), bucketGetDb_getD]
  | del o =>
      simp only [StoreOp.point] at h
      cases db with
      | none => rfl
      | some b =>
          show bucketGet (bucketDelete b (writeOutpointBytes o)) k = bucketGet b k
          exact bucketGet_delete_other _ _ _ (Ne.symm h)

theorem applyOps_preserves (ops : List StoreOp) (db : Db) (k : Bytes)
    (h : ∀ op ∈ ops, k ≠ writeOutpointBytes op.point) :
    bucketGetDb (applyOps db ops) k = bucketGetDb db k := by
  induction ops generalizing db with
  | nil => rfl
  | cons op rest ih =>
      have hop : k ≠ writeOutpointBytes op.point := h op (by simp)
      have hrest : ∀ op2 ∈ rest, k ≠ writeOutpointBytes op2.point :=
        fun op2 hm => h op2 (by simp [hm])
      calc bucketGetDb (applyOps (applyOp db op) rest) k
          = bucketGetDb (applyOp db op) k := ih (applyOp db op) hrest
        _ = bucketGetDb db k := applyOp_preserves db op k hop

theorem getChannelOpeningState_eq_decode (db : Db) (o : OutPoint) :
    getChannelOpeningState db o =
      match bucketGetDb db (writeOutpointBytes o) with
      | none => .error .channelNotFound
      | some value =>
          .ok (byteOrderUint16 value % 2 ^ 8,
               NewShortChanIDFromInt (byteOrderUint64 (value.drop 2))) := by
  cases db with
  | none => rfl
  | some b =>
      simp only [getChannelOpeningState, bucketGetDb]

theorem byteOrderUint16_append (a b : Bytes) (ha : a.length = 2) :
    byteOrderUint16 (a ++ b) = byteOrderUint16 a := by
  match a, ha with
  | [a0, a1], _ => rfl

theorem bucketGetDb_save_self (db : Db) (o : OutPoint) (st : Nat)
    (scid : ShortChannelID) :
    bucketGetDb (saveChannelOpeningState db o st scid) (writeOutpointBytes o)
      = some (byteOrderPutUint16 st ++ byteOrderPutUint64 scid.toUint64) := by
  unfold saveChannelOpeningState
  show bucketGet (bucketPut _ _ _) _ = _
  rw [bucketGet_put_self]

/-- C1: after `saveChannelOpeningState(o, s, scid)` and any later store
operations that touch only other outpoints, `getChannelOpeningState(o)`
returns exactly `(s, scid)`; and once `deleteChannelOpeningState(o)`
succeeds, `getChannelOpeningState(o)` returns `ErrChannelNotFound` (again
stable under operations on other outpoints). -/
theorem saveGet_roundtrip_and_delete
    (db : Db) (o : OutPoint) (st : Nat) (scid : ShortChannelID)
    (ops : List StoreOp)
    (ho : o.wf) (hst : st < 2 ^ 8) (hscid : scid.valid)
    (hops : ∀ op ∈ ops, op.point.wf ∧ op.point ≠ o) :
    getChannelOpeningState (applyOps (saveChannelOpeningState db o st scid) ops) o
      = .ok (st, scid) ∧
    (∀ db1 db2 : Db, deleteChannelOpeningState db1 o = .ok db2 →
      getChannelOpeningState (applyOps db2 ops) o = .error .channelNotFound) := by
  have hkeys : ∀ op ∈ ops, writeOutpointBytes o ≠ writeOutpointBytes op.point := by
    intro op hm heq
    exact (hops op hm).2 (writeOutpointBytes_inj _ _ (hops op hm).1 ho heq.symm)
  constructor
  · rw [getChannelOpeningState_eq_decode,
      applyOps_preserves ops _ _ hkeys, bucketGetDb_save_self]
    have hdrop :
        (byteOrderPutUint16 st ++ byteOrderPutUint64 scid.toUint64).drop 2
          = byteOrderPutUint64 scid.toUint64 := by
      simp [byteOrderPutUint16]
    show Except.ok
        (byteOrderUint16 (byteOrderPutUint16 st ++ byteOrderPutUint64
            scid.toUint64) % 2 ^ 8,
          NewShortChanIDFromInt (byteOrderUint64 (List.drop 2
            (byteOrderPutUint16 st ++ byteOrderPutUint64 scid.toUint64))))
        = Except.ok (st, scid)
    rw [byteOrderUint16_append _ _ (by simp [byteOrderPutUint16]), hdrop,
      byteOrderUint16_put, byteOrderUint64_put _ (toUint64_lt scid),
      shortChanID_roundtrip scid hscid]
    have hmod : st % 2 ^ 16 % 2 ^ 8 = st := by omega
    rw [hmod]
  · intro db1 db2 hdel
    cases db1 with
    | none => simp [deleteChannelOpeningState] at hdel
    | some b =>
        simp only [deleteChannelOpeningState, Except.ok.injEq] at hdel
        subst hdel
        rw [getChannelOpeningState_eq_decode, applyOps_preserves ops _ _ hkeys]
        show (match bucketGet (bucketDelete b (writeOutpointBytes o))
            (writeOutpointBytes o) with
          | none => (.error .channelNotFound :
              Except StoreErr (Nat × ShortChannelID))
          | some value =>
              .ok (byteOrderUint16 value % 2 ^ 8,
                NewShortChanIDFromInt (byteOrderUint64 (value.drop 2)))) = _
        rw [bucketGet_delete_self]

/-- Concrete outpoint used by witnesses for the opening-state store. -/
def w1Point : OutPoint := { hash := List.replicate 32 0, index := 0 }

/-- Second concrete outpoint, distinct from `w1Point`. -/
def w2Point : OutPoint := { hash := List.replicate 32 1, index := 5 }

/-- Concrete short channel id used by witnesses. -/
def w1Scid : ShortChannelID := { blockHeight := 7, txIndex := 5, txPosition := 3 }

/-- Witness for C1: a save of `(fundingLockedSent, w1Scid)` for `w1Point`
followed by a save and a delete for the distinct `w2Point` still reads back
exactly what was saved. -/
theorem saveGet_roundtrip_and_delete_witness :
    getChannelOpeningState
        (applyOps (saveChannelOpeningState none w1Point fundingLockedSent w1Scid)
          [.save w2Point markedOpen w1Scid, .del w2Point]) w1Point
      = .ok (fundingLockedSent, w1Scid) :=
  (saveGet_roundtrip_and_delete none w1Point fundingLockedSent w1Scid
    [.save w2Point markedOpen w1Scid, .del w2Point]
    (by decide) (by decide) (by decide) (by decide)).1

/-- Concrete outpoint for the C8 counterexample. -/
def c8Point : OutPoint := { hash := List.replicate 32 17, index := 9 }

/-- Concrete short channel id for the C8 counterexample. -/
def c8Scid : ShortChannelID :=
  { blockHeight := 600000, txIndex := 42, txPosition := 1 }

/-- C8 counterexample: the record written for state `fundingLockedSent`
(ordinal 1) is not of the shape claimed by the spec — a 2-byte
little-endian state ordinal followed by the 8-byte big-endian packed short
channel id — because the source writes both fields with the same
`byteOrder`; the state bytes come out as `[0, 1]`, not `[1, 0]`. -/
theorem saveValue_not_leState_cex :
    bucketGetDb (saveChannelOpeningState none c8Point fundingLockedSent c8Scid)
        (writeOutpointBytes c8Point)
      ≠ some (putUint16LE fundingLockedSent ++
          byteOrderPutUint64 c8Scid.toUint64) := by
  decide

/-- C8 amended: every record written by `saveChannelOpeningState` has as
value the 2-byte big-endian state ordinal followed by the 8-byte big-endian
packed short channel id (both fields use the manager's single big-endian
`byteOrder`), keyed by the serialised outpoint, 32-byte hash followed by the
4-byte little-endian output index. -/
theorem saveValue_layout (db : Db) (o : OutPoint) (st : Nat)
    (scid : ShortChannelID) :
    bucketGetDb (saveChannelOpeningState db o st scid) (writeOutpointBytes o)
      = some (beBytes 2 st ++ beBytes 8 scid.toUint64) ∧
    writeOutpointBytes o = o.hash ++ leBytes 4 o.index := by
  refine ⟨?_, ?_⟩
  · rw [bucketGetDb_save_self, beBytes_two, beBytes_eight]
  · unfold writeOutpointBytes
    rw [leBytes_four]

/-- Embedding of the fields of `reservationWithCtx` that the zombie sweeper
and the PSBT path inspect: the `lastUpdated` wall-clock timestamp (the Go
`time.Time` zero value is modelled by `0`) and the wallet reservation's
`IsPsbt()` / `IsCannedShim()` reports. -/
structure ReservationWithCtx where
  lastUpdated : Int
  isPsbt : Bool
  isCannedShim : Bool
deriving DecidableEq, Repr

/-- Embedding of `reservationWithCtx.isLocked`: the time zero value
represents a locked reservation. -/
def ReservationWithCtx.isLocked (r : ReservationWithCtx) : Bool :=
  r.lastUpdated == 0

/-- Embedding of `reservationWithCtx.updateTimestamp`: stores the current
wall time. -/
def updateTimestamp (r : ReservationWithCtx) (now : Int) : ReservationWithCtx :=
  { r with lastUpdated := now }

/-- One peer's `pendingChannels` map: pending channel id (abstracted to a
natural) to reservation context. -/
abbrev PendingChannels := List (Nat × ReservationWithCtx)

/-- Go map assignment `m[k] = v` on a `pendingChannels` map: overwrites an
existing binding, otherwise appends. -/
def mapPutRes (m : PendingChannels) (k : Nat) (v : ReservationWithCtx) :
    PendingChannels :=
  match m with
  | [] => [(k, v)]
  | (k0, v0) :: rest =>
      if k0 = k then (k, v) :: rest else (k0, v0) :: mapPutRes rest k v

/-- The body of the inner loop of `pruneZombieReservations`: skip locked
contexts, then collect a context when it is not PSBT-funded and its idle
time exceeds the reservation timeout. -/
def pruneStep (now timeout : Int) (acc : PendingChannels)
    (kv : Nat × ReservationWithCtx) : PendingChannels :=
  if kv.2.isLocked then acc
  else
    let sinceLastUpdate := now - kv.2.lastUpdated
    let isExpired : Bool := decide (sinceLastUpdate > timeout)
    if !kv.2.isPsbt && isExpired then mapPutRes acc kv.1 kv.2 else acc

/-- Embedding of `fundingManager.pruneZombieReservations`: walks every
reservation of every peer and collects the zombies into a single
`pendingChannels` map (each collected context is subsequently failed via
`failFundingFlow`). -/
def pruneZombieReservations (now timeout : Int)
    (active : List PendingChannels) : PendingChannels :=
  active.foldl (fun acc bucket => bucket.foldl (pruneStep now timeout) acc) []

theorem mem_mapPutRes (m : PendingChannels) (k : Nat) (v : ReservationWithCtx)
    (cid : Nat) (r : ReservationWithCtx)
    (h : (cid, r) ∈ mapPutRes m k v) : (cid, r) ∈ m ∨ (cid, r) = (k, v) := by
  induction m with
  | nil =>
      simp [mapPutRes] at h
      right
      simp [h]
  | cons hd tl ih =>
      obtain ⟨k0, v0⟩ := hd
      by_cases hk : k0 = k
      · simp [mapPutRes, hk] at h
        rcases h with h | h
        · right; simp [h]
        · left; simp [h]
      · simp [mapPutRes, hk] at h
        rcases h with h | h
        · left; simp [h]
        · rcases ih h with h2 | h2
          · left; simp [h2]
          · right; exact h2

theorem mapPutRes_fresh (m : PendingChannels) (k : Nat)
    (v : ReservationWithCtx) (h : k ∉ m.map Prod.fst) :
    mapPutRes m k v = m ++ [(k, v)] := by
  induction m with
  | nil => rfl
  | cons hd tl ih =>
      obtain ⟨k0, v0⟩ := hd
      simp only [List.map_cons, List.mem_cons] at h
      push_neg at h
      simp only [mapPutRes, if_neg (Ne.symm h.1), List.cons_append, List.cons.injEq,
        true_and]
      exact ih h.2

/-- The condition under which `pruneStep` collects a context, written as a
single boolean. -/
def zombieCond (now timeout : Int) (r : ReservationWithCtx) : Bool :=
  !r.isLocked && (!r.isPsbt && decide (now - r.lastUpdated > timeout))

theorem pruneStep_eq (now timeout : Int) (acc : PendingChannels)
    (kv : Nat × ReservationWithCtx) :
    pruneStep now timeout acc kv =
      if zombieCond now timeout kv.2 then mapPutRes acc kv.1 kv.2 else acc := by
  unfold pruneStep zombieCond
  by_cases hl : kv.2.isLocked
  · simp [hl]
  · simp [hl]

theorem foldl_pruneStep_mem (now timeout : Int) (l : PendingChannels)
    (acc : PendingChannels) (cid : Nat) (r : ReservationWithCtx)
    (h : (cid, r) ∈ l.foldl (pruneStep now timeout) acc) :
    (cid, r) ∈ acc ∨ ((cid, r) ∈ l ∧ zombieCond now timeout r = true) := by
  induction l generalizing acc with
  | nil => exact Or.inl h
  | cons kv tl ih =>
      simp only [List.foldl_cons] at h
      rcases ih (pruneStep now timeout acc kv) h with h2 | h2
      · rw [pruneStep_eq] at h2
        by_cases hc : zombieCond now timeout kv.2 = true
        · rw [if_pos hc] at h2
          rcases mem_mapPutRes _ _ _ _ _ h2 with h3 | h3
          · exact Or.inl h3
          · right
            refine ⟨by simp [Prod.ext_iff] at h3 ⊢; tauto, ?_⟩
            have : r = kv.2 := by
              simp [Prod.ext_iff] at h3; tauto
            rw [this]; exact hc
        · rw [if_neg hc] at h2
          exact Or.inl h2
      · exact Or.inr ⟨List.mem_cons_of_mem _ h2.1, h2.2⟩

theorem pruneZombie_mem_then (now timeout : Int)
    (active : List PendingChannels) (cid : Nat) (r : ReservationWithCtx)
    (h : (cid, r) ∈ pruneZombieReservations now timeout active) :
    (∃ bucket ∈ active, (cid, r) ∈ bucket) ∧
      r.isLocked = false ∧ r.isPsbt = false ∧
      now - r.lastUpdated > timeout := by
  unfold pruneZombieReservations at h
  rw [← List.foldl_flatten] at h
  rcases foldl_pruneStep_mem now timeout _ _ _ _ h with h2 | h2
  · simp at h2
  · refine ⟨?_, ?_⟩
    · rcases List.mem_flatten.mp h2.1 with ⟨bucket, hb, hm⟩
      exact ⟨bucket, hb, hm⟩
    · have hc := h2.2
      unfold zombieCond at hc
      simp only [Bool.and_eq_true, Bool.not_eq_true', decide_eq_true_eq] at hc
      exact ⟨hc.1, hc.2.1, hc.2.2⟩

theorem foldl_pruneStep_fresh (now timeout : Int) (l : PendingChannels)
    (acc : PendingChannels)
    (hnodup : (l.map Prod.fst).Nodup)
    (hdisj : ∀ k ∈ l.map Prod.fst, k ∉ acc.map Prod.fst) :
    l.foldl (pruneStep now timeout) acc =
      acc ++ l.filter (fun kv => zombieCond now timeout kv.2) := by
  induction l generalizing acc with
  | nil => simp
  | cons kv tl ih =>
      obtain ⟨k, v⟩ := kv
      simp only [List.map_cons, List.nodup_cons] at hnodup
      have hkfresh : k ∉ acc.map Prod.fst := hdisj k (by simp)
      simp only [List.foldl_cons, pruneStep_eq]
      by_cases hc : zombieCond now timeout v = true
      · rw [if_pos hc, mapPutRes_fresh _ _ _ hkfresh,
          ih (acc ++ [(k, v)]) hnodup.2 ?_]
        · simp [List.filter, hc]
        · intro k2 hk2
          simp only [List.map_append, List.mem_append] at *
          push_neg
          constructor
          · exact hdisj k2 (by simp [hk2])
          · simp only [List.map_cons, List.map_nil, List.mem_singleton]
            intro heq
            exact hnodup.1 (heq ▸ hk2)
      · rw [if_neg hc, ih acc hnodup.2 (fun k2 hk2 => hdisj k2 (by simp [hk2]))]
        have : zombieCond now timeout v = false := by
          simpa using hc
        simp [List.filter, this]

/-- C5: a run of `pruneZombieReservations` collects (and hence fails)
exactly those reservation contexts that are not locked (non-zero
`lastUpdated`), whose wallet reservation does not report PSBT funding, and
whose idle time exceeds the configured reservation timeout; it never
collects a locked or PSBT context.  The pending channel ids in the registry
are assumed collision-free, which the spec guarantees by construction. -/
theorem pruneZombie_spec (now timeout : Int) (active : List PendingChannels)
    (hnodup : ((active.flatten).map Prod.fst).Nodup) (cid : Nat)
    (r : ReservationWithCtx) :
    (cid, r) ∈ pruneZombieReservations now timeout active ↔
      ((cid, r) ∈ active.flatten ∧ r.isLocked = false ∧ r.isPsbt = false ∧
        now - r.lastUpdated > timeout) := by
  unfold pruneZombieReservations
  rw [← List.foldl_flatten,
    foldl_pruneStep_fresh now timeout _ _ hnodup (by simp)]
  simp only [List.nil_append, List.mem_filter]
  unfold zombieCond
  simp only [Bool.and_eq_true, Bool.not_eq_true', decide_eq_true_eq]

/-- Concrete zombie context: idle for longer than the timeout. -/
def zombieCtx : ReservationWithCtx :=
  { lastUpdated := 10, isPsbt := false, isCannedShim := false }

/-- Concrete locked context (zero timestamp). -/
def lockedCtx : ReservationWithCtx :=
  { lastUpdated := 0, isPsbt := false, isCannedShim := false }

/-- Concrete PSBT context, idle past the timeout but never pruned. -/
def psbtCtx : ReservationWithCtx :=
  { lastUpdated := 10, isPsbt := true, isCannedShim := false }

/-- Concrete fresh context, inside the timeout. -/
def freshCtx : ReservationWithCtx :=
  { lastUpdated := 990, isPsbt := false, isCannedShim := false }

/-- Witness for C5: at time 1000 with timeout 100, in a registry holding a
zombie, a locked, a PSBT and a fresh context, exactly the zombie is
collected. -/
theorem pruneZombie_spec_witness :
    (1, zombieCtx) ∈ pruneZombieReservations 1000 100
        [[(1, zombieCtx), (2, lockedCtx)], [(3, psbtCtx), (4, freshCtx)]] ∧
    (2, lockedCtx) ∉ pruneZombieReservations 1000 100
        [[(1, zombieCtx), (2, lockedCtx)], [(3, psbtCtx), (4, freshCtx)]] ∧
    (3, psbtCtx) ∉ pruneZombieReservations 1000 100
        [[(1, zombieCtx), (2, lockedCtx)], [(3, psbtCtx), (4, freshCtx)]] ∧
    (4, freshCtx) ∉ pruneZombieReservations 1000 100
        [[(1, zombieCtx), (2, lockedCtx)], [(3, psbtCtx), (4, freshCtx)]] := by
  refine ⟨?_, ?_, ?_, ?_⟩
  · exact (pruneZombie_spec 1000 100 _ (by decide) 1 zombieCtx).mpr
      (by decide)
  · intro h
    exact absurd ((pruneZombie_spec 1000 100 _ (by decide) 2 lockedCtx).mp h)
      (by decide)
  · intro h
    exact absurd ((pruneZombie_spec 1000 100 _ (by decide) 3 psbtCtx).mp h)
      (by decide)
  · intro h
    exact absurd ((pruneZombie_spec 1000 100 _ (by decide) 4 freshCtx).mp h)
      (by decide)

/-- Embedding of the PSBT park of `handleFundingAccept`: when
`ProcessContribution` reports `PsbtFundingRequired`, the handler spawns
`waitForPsbt` in a goroutine and returns, at which point the deferred
`resCtx.updateTimestamp()` placed at the top of the handler stamps the
context with the current wall time.  The result is the reservation context
as it stands for the whole time the flow is parked on the PSBT-ready
future. -/
def handleFundingAcceptPsbtPark (r : ReservationWithCtx) (now : Int) :
    ReservationWithCtx :=
  updateTimestamp r now

/-- Concrete context entering the PSBT park for the C9 counterexample. -/
def c9Ctx : ReservationWithCtx :=
  { lastUpdated := 0, isPsbt := true, isCannedShim := false }

/-- C9 counterexample: a reservation context parked on the PSBT-ready future
at wall time 5 is not locked — the deferred `updateTimestamp` at the end of
`handleFundingAccept` has overwritten `lastUpdated` with the (non-zero)
current time, so `isLocked()` reports `false` during the park. -/
theorem psbtPark_not_locked_cex :
    (handleFundingAcceptPsbtPark c9Ctx 5).isLocked = false := by
  decide

/-- C9 amended: while a funding flow is parked on the PSBT-ready future, the
reservation context is not locked (its `lastUpdated` holds the non-zero
wall time at which `handleFundingAccept` returned, so `isLocked()` is
false); what keeps the ZombieSweeper from reaping the parked flow is that
`pruneZombieReservations` never collects a context whose wallet reservation
reports `IsPsbt() == true`. -/
theorem psbtPark_unlocked_psbt_protected (r : ReservationWithCtx) (now : Int)
    (hnow : now ≠ 0) (hpsbt : r.isPsbt = true) :
    (handleFundingAcceptPsbtPark r now).isLocked = false ∧
    ∀ sweepNow timeout : Int, ∀ active : List PendingChannels, ∀ cid : Nat,
      (cid, handleFundingAcceptPsbtPark r now) ∉
        pruneZombieReservations sweepNow timeout active := by
  constructor
  · simp [handleFundingAcceptPsbtPark, updateTimestamp,
      ReservationWithCtx.isLocked, hnow]
  · intro sweepNow timeout active cid h
    have := (pruneZombie_mem_then sweepNow timeout active cid _ h).2.2.1
    simp [handleFundingAcceptPsbtPark, updateTimestamp, hpsbt] at this

/-- Witness for C9 amended: the concrete parked context at wall time 5 is
unlocked yet survives a sweep of a registry containing it. -/
theorem psbtPark_unlocked_psbt_protected_witness :
    (handleFundingAcceptPsbtPark c9Ctx 5).isLocked = false ∧
    (7, handleFundingAcceptPsbtPark c9Ctx 5) ∉
      pruneZombieReservations 1000 100 [[(7, handleFundingAcceptPsbtPark c9Ctx 5)]] := by
  have h := psbtPark_unlocked_psbt_protected c9Ctx 5 (by decide) (by decide)
  exact ⟨h.1, h.2 1000 100 [[(7, handleFundingAcceptPsbtPark c9Ctx 5)]] 7⟩

/-- The slice of an active reservation that `handleFundingOpen` inspects for
its DoS count: whether the wallet reservation was created from a canned
funding shim. -/
structure ReservationEntry where
  isCannedShim : Bool
deriving DecidableEq, Repr

/-- The slice of a database channel that `handleFundingOpen` inspects:
pending flag and thaw height. -/
structure DbChannel where
  isPending : Bool
  thawHeight : Nat
deriving DecidableEq, Repr

/-- The fields of an inbound `lnwire.OpenChannel` that drive the admission
checks; amounts are satoshi values. -/
structure FundingOpenMsg where
  pendingChannelID : Nat
  fundingAmount : Int
  pushAmount : Int
deriving DecidableEq, Repr

/-- The environment `handleFundingOpen` consults: the peer's active
reservations, the result of `FetchOpenChannels` (`none` models a database
error), and the configuration knobs; `isSynced` is false when the wallet
reports unsynced or the sync query errors, `acceptorAccepts` is the
`ChannelAcceptor` verdict and `reservationOk` tells whether
`InitChannelReservation` would succeed. -/
structure FundingOpenEnv where
  reservations : List ReservationEntry
  fetchedChannels : Option (List DbChannel)
  maxPendingChannels : Nat
  isSynced : Bool
  maxChanSize : Int
  minChanSize : Int
  rejectPush : Bool
  acceptorAccepts : Bool
  reservationOk : Bool
deriving DecidableEq, Repr

/-- Embedding of the two counting loops of `handleFundingOpen`: active
reservations not created from a canned shim, plus database channels that
are pending with zero thaw height. -/
def numPendingForPeer (rs : List ReservationEntry) (cs : List DbChannel) :
    Nat :=
  let fromReservations :=
    rs.foldl (fun n r => if !r.isCannedShim then n + 1 else n) 0
  let fromChannels :=
    cs.foldl (fun n c => if c.isPending && c.thawHeight == 0 then n + 1 else n) 0
  fromReservations + fromChannels

/-- The error values `handleFundingOpen` can hand to `failFundingFlow`. -/
inductive OpenChanError where
  | fetchChannelsErr
  | errMaxPendingChannels
  | errSynchronizingChain
  | errChanTooLarge (amt maxSize : Int)
  | errChanTooSmall (amt minSize : Int)
  | errNonZeroPushAmount
  | acceptorRejected
  | initReservationErr
deriving DecidableEq, Repr

/-- Outcome of an inbound Open: the flow is failed with an error, or a
wallet reservation has been created and the handler proceeds. -/
inductive OpenOutcome where
  | failed (e : OpenChanError)
  | reservationCreated
deriving DecidableEq, Repr

/-- Outcome paired with whether `InitChannelReservation` was reached. -/
structure OpenResult where
  outcome : OpenOutcome
  initReservationCalled : Bool
deriving DecidableEq, Repr

/-- Embedding of the admission pipeline of
`fundingManager.handleFundingOpen`, in source order: pending-count check
(after `FetchOpenChannels`), chain-sync check, maximum then minimum channel
size, reject-push, channel acceptor, and finally
`InitChannelReservation`. -/
def handleFundingOpen (env : FundingOpenEnv) (msg : FundingOpenMsg) :
    OpenResult :=
  match env.fetchedChannels with
  | none => ⟨.failed .fetchChannelsErr, false⟩
  | some channels =>
      let numPending := numPendingForPeer env.reservations channels
      if numPending ≥ env.maxPendingChannels then
        ⟨.failed .errMaxPendingChannels, false⟩
      else if !env.isSynced then
        ⟨.failed .errSynchronizingChain, false⟩
      else if msg.fundingAmount > env.maxChanSize then
        ⟨.failed (.errChanTooLarge msg.fundingAmount env.maxChanSize), false⟩
      else if msg.fundingAmount < env.minChanSize then
        ⟨.failed (.errChanTooSmall msg.fundingAmount env.minChanSize), false⟩
      else if env.rejectPush && msg.pushAmount > 0 then
        ⟨.failed .errNonZeroPushAmount, false⟩
      else if !env.acceptorAccepts then
        ⟨.failed .acceptorRejected, false⟩
      else if !env.reservationOk then
        ⟨.failed .initReservationErr, true⟩
      else
        ⟨.reservationCreated, true⟩

theorem handleFundingOpen_initCalled_iff (env : FundingOpenEnv)
    (msg : FundingOpenMsg) :
    (handleFundingOpen env msg).initReservationCalled = true ↔
      ((handleFundingOpen env msg).outcome = .failed .initReservationErr ∨
       (handleFundingOpen env msg).outcome = .reservationCreated) := by
  unfold handleFundingOpen
  rcases env.fetchedChannels with _ | channels
  · simp
  · simp only
    repeat' split
    all_goals simp

theorem handleFundingOpen_amountFail_noReservation (env : FundingOpenEnv)
    (msg : FundingOpenMsg) (a m : Int)
    (h : (handleFundingOpen env msg).outcome = .failed (.errChanTooSmall a m) ∨
         (handleFundingOpen env msg).outcome = .failed (.errChanTooLarge a m)) :
    (handleFundingOpen env msg).initReservationCalled = false := by
  by_contra hc
  have ht : (handleFundingOpen env msg).initReservationCalled = true := by
    revert hc
    cases (handleFundingOpen env msg).initReservationCalled <;> simp
  rcases (handleFundingOpen_initCalled_iff env msg).mp ht with h2 | h2 <;>
    rcases h with h | h <;> rw [h] at h2 <;> simp at h2

/-- C2: with the earlier checks passing (channels fetched, pending count
below the maximum, chain synced) and a sane configuration
(`MinChanSize ≤ MaxChanSize`), an Open below `MinChanSize` is failed with
`ErrChanTooSmall`, one above `MaxChanSize` with `ErrChanTooLarge`, amounts
exactly equal to either bound pass both checks, and any Open rejected on
amount never reaches `InitChannelReservation`. -/
theorem handleFundingOpen_amount_checks (env : FundingOpenEnv)
    (msg : FundingOpenMsg) (cs : List DbChannel)
    (hfetch : env.fetchedChannels = some cs)
    (hpend : numPendingForPeer env.reservations cs < env.maxPendingChannels)
    (hsync : env.isSynced = true)
    (hminmax : env.minChanSize ≤ env.maxChanSize) :
    (msg.fundingAmount < env.minChanSize →
      (handleFundingOpen env msg).outcome =
        .failed (.errChanTooSmall msg.fundingAmount env.minChanSize)) ∧
    (msg.fundingAmount > env.maxChanSize →
      (handleFundingOpen env msg).outcome =
        .failed (.errChanTooLarge msg.fundingAmount env.maxChanSize)) ∧
    (env.minChanSize ≤ msg.fundingAmount → msg.fundingAmount ≤ env.maxChanSize →
      ∀ a m : Int,
        (handleFundingOpen env msg).outcome ≠ .failed (.errChanTooSmall a m) ∧
        (handleFundingOpen env msg).outcome ≠ .failed (.errChanTooLarge a m)) ∧
    (∀ env2 : FundingOpenEnv, ∀ msg2 : FundingOpenMsg, ∀ a m : Int,
      ((handleFundingOpen env2 msg2).outcome = .failed (.errChanTooSmall a m) ∨
       (handleFundingOpen env2 msg2).outcome = .failed (.errChanTooLarge a m)) →
      (handleFundingOpen env2 msg2).initReservationCalled = false) := by
  refine ⟨?_, ?_, ?_, ?_⟩
  · intro hamt
    unfold handleFundingOpen
    rw [hfetch]
    simp only
    rw [if_neg (by omega), if_neg (by simp [hsync]), if_neg (by omega),
      if_pos (by omega)]
  · intro hamt
    unfold handleFundingOpen
    rw [hfetch]
    simp only
    rw [if_neg (by omega), if_neg (by simp [hsync]), if_pos (by omega)]
  · intro hlo hhi a m
    unfold handleFundingOpen
    rw [hfetch]
    simp only
    rw [if_neg (by omega), if_neg (by simp [hsync]), if_neg (by omega),
      if_neg (by omega)]
    constructor <;> (split <;> [skip; (split <;> [skip; split])]) <;> simp
  · intro env2 msg2 a m h
    exact handleFundingOpen_amountFail_noReservation env2 msg2 a m h

/-- Database channels fetched in the C2 and C3 witnesses. -/
def wOpenChans : List DbChannel := [{ isPending := true, thawHeight := 144 }]

/-- Environment used by the C2 and C3 witnesses: min size 20000, max size
16777215, limit of one pending channel, synced, accepting. -/
def wOpenEnv : FundingOpenEnv :=
  { reservations := [{ isCannedShim := true }]
    fetchedChannels := some wOpenChans
    maxPendingChannels := 1
    isSynced := true
    maxChanSize := 16777215
    minChanSize := 20000
    rejectPush := false
    acceptorAccepts := true
    reservationOk := true }

/-- Witness for C2: in `wOpenEnv` an Open of 19999 satoshi is rejected with
`ErrChanTooSmall`, and one of 20000 passes both amount checks. -/
theorem handleFundingOpen_amount_checks_witness :
    (handleFundingOpen wOpenEnv
        { pendingChannelID := 0, fundingAmount := 19999, pushAmount := 0
        }).outcome = .failed (.errChanTooSmall 19999 20000) ∧
    ∀ a m : Int,
      (handleFundingOpen wOpenEnv
          { pendingChannelID := 0, fundingAmount := 20000, pushAmount := 0
          }).outcome ≠ .failed (.errChanTooSmall a m) := by
  constructor
  · exact (handleFundingOpen_amount_checks wOpenEnv _ wOpenChans (by decide)
      (by decide) (by decide) (by decide)).1 (by decide)
  · intro a m
    exact ((handleFundingOpen_amount_checks wOpenEnv _ wOpenChans (by decide)
      (by decide) (by decide) (by decide)).2.2.1 (by decide) (by decide) a m).1

/-- C3: with `FetchOpenChannels` succeeding, `handleFundingOpen` fails the
flow with `ErrMaxPendingChannels` if and only if the number of the peer's
non-canned-shim reservations plus its pending zero-thaw-height database
channels is at least `MaxPendingChannels`; in particular a count exactly
equal to the maximum rejects the next Open. -/
theorem handleFundingOpen_maxPending (env : FundingOpenEnv)
    (msg : FundingOpenMsg) (cs : List DbChannel)
    (hfetch : env.fetchedChannels = some cs) :
    ((handleFundingOpen env msg).outcome = .failed .errMaxPendingChannels ↔
      numPendingForPeer env.reservations cs ≥ env.maxPendingChannels) ∧
    (numPendingForPeer env.reservations cs = env.maxPendingChannels →
      (handleFundingOpen env msg).outcome = .failed .errMaxPendingChannels) := by
  constructor
  · unfold handleFundingOpen
    rw [hfetch]
    simp only
    split
    · simp
      omega
    · constructor
      · intro h
        exfalso
        revert h
        split <;> [skip; (split <;> [skip; (split <;>
          [skip; (split <;> [skip; (split <;> [skip; split])])])])] <;> simp
      · omega
  · intro h
    unfold handleFundingOpen
    rw [hfetch]
    simp only
    rw [if_pos (by omega)]

/-- Witness for C3: in `wOpenEnv` (limit 1) a peer with one non-shim
reservation is rejected with `ErrMaxPendingChannels`. -/
theorem handleFundingOpen_maxPending_witness :
    (handleFundingOpen
        { wOpenEnv with reservations := [{ isCannedShim := false }] }
        { pendingChannelID := 0, fundingAmount := 100000, pushAmount := 0
        }).outcome = .failed .errMaxPendingChannels :=
  (handleFundingOpen_maxPending
    { wOpenEnv with reservations := [{ isCannedShim := false }] }
    { pendingChannelID := 0, fundingAmount := 100000, pushAmount := 0 }
    wOpenChans (by decide)).2 (by decide)

/-- Embedding of Go `bytes.Compare`: lexicographic comparison returning
`-1`, `0` or `1`. -/
def bytesCompare : Bytes → Bytes → Int
  | [], [] => 0
  | [], _ :: _ => -1
  | _ :: _, [] => 1
  | a :: as, b :: bs =>
      if a < b then -1 else if b < a then 1 else bytesCompare as bs

/-- The ordering-relevant slice of the `lnwire.ChannelAnnouncement` built by
`newChanAnnouncement`, together with the `chanFlags` of the accompanying
`ChannelUpdate`. -/
structure ChanAnnOrder where
  nodeID1 : Bytes
  nodeID2 : Bytes
  bitcoinKey1 : Bytes
  bitcoinKey2 : Bytes
  chanFlags : Nat
deriving DecidableEq, Repr

/-- Embedding of the node-ordering branch of
`fundingManager.newChanAnnouncement`: if our serialised identity key is
lexicographically smaller than the remote one we are the first node and the
direction flag is 0, otherwise the remote key comes first and the flag
is 1. -/
def newChanAnnouncement (selfBytes remoteBytes localFundingKey
    remoteFundingKey : Bytes) : ChanAnnOrder :=
  if bytesCompare selfBytes remoteBytes = -1 then
    { nodeID1 := selfBytes, nodeID2 := remoteBytes
      bitcoinKey1 := localFundingKey, bitcoinKey2 := remoteFundingKey
      chanFlags := 0 }
  else
    { nodeID1 := remoteBytes, nodeID2 := selfBytes
      bitcoinKey1 := remoteFundingKey, bitcoinKey2 := localFundingKey
      chanFlags := 1 }

theorem bytesCompare_eq_zero (a b : Bytes) (h : bytesCompare a b = 0) :
    a = b := by
  induction a generalizing b with
  | nil =>
      cases b with
      | nil => rfl
      | cons hd tl => simp [bytesCompare] at h
  | cons x xs ih =>
      cases b with
      | nil => simp [bytesCompare] at h
      | cons y ys =>
          unfold bytesCompare at h
          by_cases h1 : x < y
          · rw [if_pos h1] at h
            exact absurd h (by norm_num)
          · rw [if_neg h1] at h
            by_cases h2 : y < x
            · rw [if_pos h2] at h
              exact absurd h (by norm_num)
            · rw [if_neg h2] at h
              have hxy : x = y := le_antisymm (not_lt.mp h2) (not_lt.mp h1)
              rw [hxy, ih ys h]

theorem bytesCompare_swap (a b : Bytes) :
    bytesCompare b a = -bytesCompare a b := by
  induction a generalizing b with
  | nil =>
      cases b with
      | nil => rfl
      | cons hd tl => simp [bytesCompare]
  | cons x xs ih =>
      cases b with
      | nil => simp [bytesCompare]
      | cons y ys =>
          unfold bytesCompare
          by_cases h1 : x < y
          · simp [h1, lt_asymm h1]
          · by_cases h2 : y < x
            · simp [h1, h2]
            · simp [h1, h2, ih ys]

theorem bytesCompare_trichotomy (a b : Bytes) :
    bytesCompare a b = -1 ∨ bytesCompare a b = 0 ∨ bytesCompare a b = 1 := by
  induction a generalizing b with
  | nil => cases b <;> simp [bytesCompare]
  | cons x xs ih =>
      cases b with
      | nil => simp [bytesCompare]
      | cons y ys =>
          unfold bytesCompare
          by_cases h1 : x < y
          · simp [h1]
          · by_cases h2 : y < x
            · simp [h1, h2]
            · simpa [h1, h2] using ih ys

/-- C6: for distinct serialised identity keys, `newChanAnnouncement` puts
the lexicographically smaller key in `NodeID1` (the local key and flag 0
when we are smaller, the remote key and flag 1 otherwise), so
`NodeID1 < NodeID2` always holds and the direction flag is 0 exactly when
our key is node 1. -/
theorem newChanAnnouncement_ordering (selfBytes remoteBytes lk rk : Bytes)
    (hne : selfBytes ≠ remoteBytes) :
    (bytesCompare selfBytes remoteBytes = -1 →
      (newChanAnnouncement selfBytes remoteBytes lk rk).nodeID1 = selfBytes ∧
      (newChanAnnouncement selfBytes remoteBytes lk rk).nodeID2 = remoteBytes ∧
      (newChanAnnouncement selfBytes remoteBytes lk rk).chanFlags = 0) ∧
    (bytesCompare selfBytes remoteBytes ≠ -1 →
      (newChanAnnouncement selfBytes remoteBytes lk rk).nodeID1 = remoteBytes ∧
      (newChanAnnouncement selfBytes remoteBytes lk rk).nodeID2 = selfBytes ∧
      (newChanAnnouncement selfBytes remoteBytes lk rk).chanFlags = 1) ∧
    bytesCompare (newChanAnnouncement selfBytes remoteBytes lk rk).nodeID1
      (newChanAnnouncement selfBytes remoteBytes lk rk).nodeID2 = -1 ∧
    ((newChanAnnouncement selfBytes remoteBytes lk rk).chanFlags = 0 ↔
      (newChanAnnouncement selfBytes remoteBytes lk rk).nodeID1 = selfBytes) := by
  have hnz : bytesCompare selfBytes remoteBytes ≠ 0 := by
    intro h
    exact hne (bytesCompare_eq_zero _ _ h)
  by_cases hcmp : bytesCompare selfBytes remoteBytes = -1
  · refine ⟨fun _ => ?_, fun hno => absurd hcmp hno, ?_, ?_⟩
    · simp [newChanAnnouncement, hcmp]
    · simp [newChanAnnouncement, hcmp]
    · simp [newChanAnnouncement, hcmp]
  · have hone : bytesCompare selfBytes remoteBytes = 1 := by
      rcases bytesCompare_trichotomy selfBytes remoteBytes with h | h | h
      · exact absurd h hcmp
      · exact absurd h hnz
      · exact h
    have hswap : bytesCompare remoteBytes selfBytes = -1 := by
      rw [bytesCompare_swap, hone]
    refine ⟨fun hyes => absurd hyes hcmp, fun _ => ?_, ?_, ?_⟩
    · simp [newChanAnnouncement, hcmp]
    · simp [newChanAnnouncement, hcmp, hswap]
    · simp only [newChanAnnouncement, if_neg hcmp]
      constructor
      · intro h
        exact absurd h (by norm_num)
      · intro h
        exact absurd h.symm hne

/-- Witness for C6: with our key `[2, 9]` and remote key `[3, 1]` we are
node 1 and the direction flag is 0; node ids come out in lexicographic
order. -/
theorem newChanAnnouncement_ordering_witness :
    (newChanAnnouncement [2, 9] [3, 1] [7] [8]).nodeID1 = [2, 9] ∧
    (newChanAnnouncement [2, 9] [3, 1] [7] [8]).chanFlags = 0 ∧
    bytesCompare (newChanAnnouncement [2, 9] [3, 1] [7] [8]).nodeID1
      (newChanAnnouncement [2, 9] [3, 1] [7] [8]).nodeID2 = -1 := by
  have h := newChanAnnouncement_ordering [2, 9] [3, 1] [7] [8] (by decide)
  have h1 := h.1 (by decide)
  exact ⟨h1.1, h1.2.2, h.2.2.1⟩

/-- Error values handed to `failFundingFlow`; the Go type switch
distinguishes `lnwallet.ReservationError` and `lnwire.FundingError` from
every other dynamic error type. -/
inductive GoError where
  | reservationError (msg : String)
  | fundingError (msg : String)
  | otherError (msg : String)
deriving DecidableEq, Repr

/-- The `Error()` text of an error value. -/
def GoError.text : GoError → String
  | .reservationError m => m
  | .fundingError m => m
  | .otherError m => m

/-- Whether the error type is in the whitelisted set whose exact text is
sent to the peer. -/
def GoError.isWhitelisted : GoError → Bool
  | .reservationError _ => true
  | .fundingError _ => true
  | .otherError _ => false

/-- The reservation context slice `cancelReservationCtx` interacts with:
whether the wallet reservation reports PSBT funding and whether its
`Cancel()` call errors. -/
structure ResSlot where
  isPsbt : Bool
  cancelFails : Bool
deriving DecidableEq, Repr

/-- One peer's map of pending channel id to reservation slot (ids
abstracted to naturals). -/
abbrev PeerSlots := List (Nat × ResSlot)

/-- The two-level `activeReservations` registry: serialised peer key to the
peer's pending channels. -/
abbrev Registry := List (Nat × PeerSlots)

/-- Association-list lookup mirroring a Go map read. -/
def lookupA {α : Type} (m : List (Nat × α)) (k : Nat) : Option α :=
  match m with
  | [] => none
  | (k0, v0) :: rest => if k0 = k then some v0 else lookupA rest k

/-- Association-list removal mirroring Go `delete(m, k)`. -/
def removeA {α : Type} (m : List (Nat × α)) (k : Nat) : List (Nat × α) :=
  match m with
  | [] => []
  | (k0, v0) :: rest =>
      if k0 = k then removeA rest k else (k0, v0) :: removeA rest k

/-- Association-list overwrite mirroring Go `m[k] = v`. -/
def putA {α : Type} (m : List (Nat × α)) (k : Nat) (v : α) : List (Nat × α) :=
  match m with
  | [] => [(k, v)]
  | (k0, v0) :: rest =>
      if k0 = k then (k, v) :: rest else (k0, v0) :: putA rest k v

/-- Outcome of `cancelReservationCtx`. -/
inductive CancelOutcome where
  | noReservations
  | unknownChannel
  | cancelFailed
  | canceled (slot : ResSlot)
deriving DecidableEq, Repr

/-- Embedding of `fundingManager.cancelReservationCtx` (called with
`byRemote = false` from `failFundingFlow`): looks the peer up, then the
pending channel id; calls `Cancel()` on the wallet reservation and returns
an error — without deleting the entry — when the cancel fails; on success
removes the entry and, when it was the peer's last one, the peer itself. -/
def cancelReservationCtx (reg : Registry) (peerKey pendingChanID : Nat) :
    CancelOutcome × Registry :=
  match lookupA reg peerKey with
  | none => (.noReservations, reg)
  | some nodeReservations =>
      match lookupA nodeReservations pendingChanID with
      | none => (.unknownChannel, reg)
      | some slot =>
          if slot.cancelFails then (.cancelFailed, reg)
          else
            let remaining := removeA nodeReservations pendingChanID
            if remaining.isEmpty then
              (.canceled slot, removeA reg peerKey)
            else
              (.canceled slot, putA reg peerKey remaining)

/-- The opaque text sent for non-whitelisted errors. -/
def internalErrorText : String := "funding failed due to internal error"

/-- An outgoing `lnwire.Error` frame. -/
structure ErrorMsg where
  chanID : Nat
  data : String
deriving DecidableEq, Repr

/-- Everything observable about one `failFundingFlow` call. -/
structure FailFlowResult where
  sentError : ErrorMsg
  sinkDelivery : Option GoError
  walletCancelCalled : Bool
  registry : Registry
deriving DecidableEq, Repr

/-- Embedding of `fundingManager.failFundingFlow`: cancels the reservation
context (ignoring a cancel error beyond logging), delivers the funding
error on the caller's error channel only when a context was returned, and
unconditionally sends an `Error` frame carrying the temporary channel id —
with the exact error text for whitelisted error types and the opaque
internal-error text otherwise. -/
def failFundingFlow (reg : Registry) (peerKey tempChanID : Nat)
    (fundingErr : GoError) : FailFlowResult :=
  let cancel := cancelReservationCtx reg peerKey tempChanID
  let sink : Option GoError :=
    match cancel.1 with
    | .canceled _ => some fundingErr
    | _ => none
  let msg : String :=
    match fundingErr with
    | .reservationError e => e
    | .fundingError e => e
    | .otherError _ => internalErrorText
  { sentError := { chanID := tempChanID, data := msg }
    sinkDelivery := sink
    walletCancelCalled :=
      match cancel.1 with
      | .noReservations => false
      | .unknownChannel => false
      | _ => true
    registry := cancel.2 }

/-- Registry used by the C7 counterexample: one reservation whose wallet
`Cancel()` fails. -/
def c7Reg : Registry := [(1, [(2, { isPsbt := false, cancelFails := true })])]

/-- C7 counterexample: the reservation for peer 1, channel 2 exists, yet
`failFundingFlow` delivers nothing on the caller's error channel because
`cancelReservationCtx` returns an error when the wallet `Cancel()` fails
and `failFundingFlow` only signals the sink for a non-nil context. -/
theorem failFundingFlow_sink_cex :
    lookupA (lookupA c7Reg 1 |>.getD []) 2
        = some { isPsbt := false, cancelFails := true } ∧
    (failFundingFlow c7Reg 1 2 (.otherError "wallet out of funds")).sinkDelivery
        = none := by
  constructor
  · rfl
  · rfl

/-- C7 amended: every `failFundingFlow(peer, tempChanID, err)` call sends an
`Error` frame whose channel id is `tempChanID` and whose data is exactly
`err.Error()` when `err` is a `ReservationError` or `FundingError` and the
opaque internal-error text for every other error type (an if-and-only-if
whenever the error text is not itself the opaque string); and when the
reservation exists and its wallet `Cancel()` succeeds, the original
specific error is additionally delivered on the caller's error channel. -/
theorem failFundingFlow_spec (reg : Registry) (peerKey tempChanID : Nat)
    (err : GoError) :
    (failFundingFlow reg peerKey tempChanID err).sentError.chanID
      = tempChanID ∧
    (err.isWhitelisted = true →
      (failFundingFlow reg peerKey tempChanID err).sentError.data = err.text) ∧
    (err.isWhitelisted = false →
      (failFundingFlow reg peerKey tempChanID err).sentError.data
        = internalErrorText) ∧
    (err.text ≠ internalErrorText →
      ((failFundingFlow reg peerKey tempChanID err).sentError.data = err.text ↔
        err.isWhitelisted = true)) ∧
    (∀ slots slot, lookupA reg peerKey = some slots →
      lookupA slots tempChanID = some slot → slot.cancelFails = false →
      (failFundingFlow reg peerKey tempChanID err).sinkDelivery = some err) := by
  refine ⟨rfl, ?_, ?_, ?_, ?_⟩
  · intro hw
    cases err <;> simp_all [failFundingFlow, GoError.text, GoError.isWhitelisted]
  · intro hw
    cases err <;> simp_all [failFundingFlow, GoError.text, GoError.isWhitelisted]
  · intro hne
    cases err with
    | reservationError m =>
        simp [failFundingFlow, GoError.text, GoError.isWhitelisted]
    | fundingError m =>
        simp [failFundingFlow, GoError.text, GoError.isWhitelisted]
    | otherError m =>
        simp only [failFundingFlow, GoError.text, GoError.isWhitelisted]
        constructor
        · intro h
          exact absurd h.symm (by simpa [GoError.text] using hne)
        · intro h
          simp at h
  · intro slots slot hpeer hchan hok
    by_cases hemp : (removeA slots tempChanID).isEmpty = true <;>
      simp [failFundingFlow, cancelReservationCtx, hpeer, hchan, hok, hemp]

/-- Witness for C7 amended: a whitelisted reservation error against an
existing, cancellable reservation is echoed verbatim to the peer and
delivered to the caller's sink. -/
theorem failFundingFlow_spec_witness :
    (failFundingFlow [(1, [(2, { isPsbt := false, cancelFails := false })])]
        1 2 (.reservationError "chan too small")).sentError
      = { chanID := 2, data := "chan too small" } ∧
    (failFundingFlow [(1, [(2, { isPsbt := false, cancelFails := false })])]
        1 2 (.reservationError "chan too small")).sinkDelivery
      = some (.reservationError "chan too small") := by
  have h := failFundingFlow_spec
    [(1, [(2, { isPsbt := false, cancelFails := false })])] 1 2
    (.reservationError "chan too small")
  refine ⟨?_, ?_⟩
  · have h1 := h.1
    have h2 := h.2.1 (by rfl)
    cases hres : (failFundingFlow
        [(1, [(2, { isPsbt := false, cancelFails := false })])] 1 2
        (.reservationError "chan too small")).sentError
    rw [hres] at h1 h2
    simp only at h1 h2
    simp [h1, h2, GoError.text]
  · exact h.2.2.2.2 [(2, { isPsbt := false, cancelFails := false })]
      { isPsbt := false, cancelFails := false } (by rfl) (by rfl) (by rfl)

/-- C10: `failFundingFlow` attempts the outgoing `Error` frame with
`ChanID = tempChanID` unconditionally; when `cancelReservationCtx` fails
because the peer has no reservations or the channel id is unknown, the
wallet-cancel and error-sink steps are skipped but the frame is still
sent. -/
theorem failFundingFlow_always_sends (reg : Registry)
    (peerKey tempChanID : Nat) (err : GoError) :
    (failFundingFlow reg peerKey tempChanID err).sentError.chanID
      = tempChanID ∧
    ((cancelReservationCtx reg peerKey tempChanID).1 = .noReservations ∨
     (cancelReservationCtx reg peerKey tempChanID).1 = .unknownChannel →
      (failFundingFlow reg peerKey tempChanID err).walletCancelCalled = false ∧
      (failFundingFlow reg peerKey tempChanID err).sinkDelivery = none) := by
  refine ⟨rfl, ?_⟩
  intro h
  rcases h with h | h <;> simp [failFundingFlow, h]

/-- Witness for C10: with an empty registry (no reservation exists at all)
the error frame still goes out with the requested channel id, while cancel
and sink are skipped. -/
theorem failFundingFlow_always_sends_witness :
    (failFundingFlow [] 1 5 (.otherError "boom")).sentError.chanID = 5 ∧
    (failFundingFlow [] 1 5 (.otherError "boom")).walletCancelCalled = false ∧
    (failFundingFlow [] 1 5 (.otherError "boom")).sinkDelivery = none := by
  have h := failFundingFlow_always_sends [] 1 5 (.otherError "boom")
  have h2 := h.2 (Or.inl (by rfl))
  exact ⟨h.1, h2.1, h2.2⟩

/-- Embedding of the constant `maxWaitNumBlocksFundingConf`. -/
def maxWaitNumBlocksFundingConf : Nat := 2016

/-- The slice of `channeldb.OpenChannel` consulted by
`waitForFundingWithTimeout`: the initiator flag and the `uint32` funding
broadcast height. -/
structure OpenChannel where
  isInitiator : Bool
  fundingBroadcastHeight : Nat
deriving DecidableEq, Repr

/-- External events a funding wait can observe, serialised in arrival
order: a block epoch (with its `int32` height), closure or failed
registration of the epoch stream, the confirmation notification, the
confirmation watcher exiting without a result (which closes `confChan`),
and funding-manager shutdown. -/
inductive WaitEvent where
  | blockEpoch (height : Int)
  | epochStreamClosed
  | epochRegFailed
  | confirmed (scid : ShortChannelID)
  | confWaitFailed
  | shutdown
deriving DecidableEq, Repr

/-- Results of `waitForFundingWithTimeout`: the confirmed channel, the
`ErrConfirmationTimeout` error (timeout channel closed), a non-nil error
from the timeout watcher, the generic waiting-for-funding-confirmation
failure (confirmation channel closed without a value),
`ErrFundingManagerShuttingDown`, or still blocked in the select. -/
inductive WaitResult where
  | confirmed (scid : ShortChannelID)
  | confirmationTimeout
  | timeoutWatcherErr
  | confWaitErr
  | shuttingDown
  | stillWaiting
deriving DecidableEq, Repr

/-- Embedding of the timeout test inside `waitForTimeout`:
`uint32(epoch.Height) >= maxHeight` with
`maxHeight := FundingBroadcastHeight + maxWaitNumBlocksFundingConf`
computed in `uint32` arithmetic. -/
def waitForTimeoutFires (broadcastHeight : Nat) (height : Int) : Bool :=
  (height % 2 ^ 32).toNat ≥
    (broadcastHeight + maxWaitNumBlocksFundingConf) % 2 ^ 32

/-- Embedding of `waitForFundingWithTimeout` joined with the `waitForTimeout`
goroutine it spawns for non-initiators, as a fold over the serialised event
trace.  For the initiator no timeout watcher is started, so epoch events and
epoch-stream failures are never consumed; for the responder a qualifying
epoch closes the timeout channel (yielding `ErrConfirmationTimeout`) and an
epoch-stream failure sends a non-nil error on it. -/
def waitForFundingWithTimeout (ch : OpenChannel) :
    List WaitEvent → WaitResult
  | [] => .stillWaiting
  | e :: rest =>
      match e with
      | .confirmed scid => .confirmed scid
      | .confWaitFailed => .confWaitErr
      | .shutdown => .shuttingDown
      | .blockEpoch h =>
          if !ch.isInitiator && waitForTimeoutFires ch.fundingBroadcastHeight h
          then .confirmationTimeout
          else waitForFundingWithTimeout ch rest
      | .epochStreamClosed =>
          if !ch.isInitiator then .timeoutWatcherErr
          else waitForFundingWithTimeout ch rest
      | .epochRegFailed =>
          if !ch.isInitiator then .timeoutWatcherErr
          else waitForFundingWithTimeout ch rest

/-- Specification-side reading of the responder timeout condition: the
trace reaches a block epoch of height at least
`broadcast_height + max_wait_blocks` (plain integer arithmetic) before any
other event resolves the wait. -/
def specTimesOut (broadcastHeight : Nat) : List WaitEvent → Bool
  | [] => false
  | .blockEpoch h :: rest =>
      if h ≥ (broadcastHeight : Int) + (maxWaitNumBlocksFundingConf : Int)
      then true
      else specTimesOut broadcastHeight rest
  | _ :: _ => false

theorem waitForTimeoutFires_iff (broadcastHeight : Nat) (h : Int)
    (hb : broadcastHeight + maxWaitNumBlocksFundingConf < 2 ^ 32)
    (hh : 0 ≤ h ∧ h < 2 ^ 31) :
    waitForTimeoutFires broadcastHeight h = true ↔
      h ≥ (broadcastHeight : Int) + (maxWaitNumBlocksFundingConf : Int) := by
  unfold waitForTimeoutFires
  rw [Nat.mod_eq_of_lt hb]
  have hmod : h % 2 ^ 32 = h := Int.emod_eq_of_lt hh.1 (by omega)
  rw [hmod]
  simp only [ge_iff_le, decide_eq_true_eq]
  omega

/-- C4 amended: `waitForFundingWithTimeout` returns `ErrConfirmationTimeout`
only for responder channels, and for a responder exactly when a block epoch
of height at least `FundingBroadcastHeight + 2016` arrives before the
confirmation notification (or any other resolving event); for the initiator
no timeout watcher is started, so the wait never ends in
`ErrConfirmationTimeout` nor in a timeout-watcher error — though it can
still end in the generic confirmation-wait failure besides confirmation and
shutdown. -/
theorem waitForFundingWithTimeout_spec (ch : OpenChannel)
    (events : List WaitEvent)
    (hb : ch.fundingBroadcastHeight + maxWaitNumBlocksFundingConf < 2 ^ 32)
    (hev : ∀ h : Int, WaitEvent.blockEpoch h ∈ events → 0 ≤ h ∧ h < 2 ^ 31) :
    (waitForFundingWithTimeout ch events = .confirmationTimeout →
      ch.isInitiator = false) ∧
    (ch.isInitiator = false →
      (waitForFundingWithTimeout ch events = .confirmationTimeout ↔
        specTimesOut ch.fundingBroadcastHeight events = true)) ∧
    (ch.isInitiator = true →
      waitForFundingWithTimeout ch events ≠ .confirmationTimeout ∧
      waitForFundingWithTimeout ch events ≠ .timeoutWatcherErr) := by
  induction events with
  | nil =>
      refine ⟨?_, ?_, ?_⟩
      · intro h
        simp [waitForFundingWithTimeout] at h
      · intro hresp
        simp [waitForFundingWithTimeout, specTimesOut]
      · intro hinit
        simp [waitForFundingWithTimeout]
  | cons e rest ih =>
      have hevrest : ∀ h : Int, WaitEvent.blockEpoch h ∈ rest →
          0 ≤ h ∧ h < 2 ^ 31 :=
        fun h hm => hev h (List.mem_cons_of_mem _ hm)
      have ihr := ih hevrest
      cases e with
      | confirmed scid =>
          exact ⟨fun h => by simp [waitForFundingWithTimeout] at h,
            fun hresp => by simp [waitForFundingWithTimeout, specTimesOut],
            fun hinit => by simp [waitForFundingWithTimeout]⟩
      | confWaitFailed =>
          exact ⟨fun h => by simp [waitForFundingWithTimeout] at h,
            fun hresp => by simp [waitForFundingWithTimeout, specTimesOut],
            fun hinit => by simp [waitForFundingWithTimeout]⟩
      | shutdown =>
          exact ⟨fun h => by simp [waitForFundingWithTimeout] at h,
            fun hresp => by simp [waitForFundingWithTimeout, specTimesOut],
            fun hinit => by simp [waitForFundingWithTimeout]⟩
      | epochStreamClosed =>
          refine ⟨?_, ?_, ?_⟩
          · intro h
            by_cases hi : ch.isInitiator
            · simp [waitForFundingWithTimeout, hi] at h
              exact (ihr.2.2 hi).1 h |>.elim
            · simpa using hi
          · intro hresp
            simp [waitForFundingWithTimeout, hresp, specTimesOut]
          · intro hinit
            simpa [waitForFundingWithTimeout, hinit] using ihr.2.2 hinit
      | epochRegFailed =>
          refine ⟨?_, ?_, ?_⟩
          · intro h
            by_cases hi : ch.isInitiator
            · simp [waitForFundingWithTimeout, hi] at h
              exact (ihr.2.2 hi).1 h |>.elim
            · simpa using hi
          · intro hresp
            simp [waitForFundingWithTimeout, hresp, specTimesOut]
          · intro hinit
            simpa [waitForFundingWithTimeout, hinit] using ihr.2.2 hinit
      | blockEpoch h =>
          have hrange := hev h (by simp)
          have hfire := waitForTimeoutFires_iff ch.fundingBroadcastHeight h hb
            hrange
          refine ⟨?_, ?_, ?_⟩
          · intro hres
            by_cases hi : ch.isInitiator
            · simp [waitForFundingWithTimeout, hi] at hres
              exact (ihr.2.2 hi).1 hres |>.elim
            · simpa using hi
          · intro hresp
            by_cases hf : waitForTimeoutFires ch.fundingBroadcastHeight h
            · simp [waitForFundingWithTimeout, hresp, hf, specTimesOut,
                hfire.mp hf]
            · have hnot : ¬ (h ≥ (ch.fundingBroadcastHeight : Int) +
                  (maxWaitNumBlocksFundingConf : Int)) := fun hc =>
                absurd (hfire.mpr hc) (by simp [hf])
              simp only [waitForFundingWithTimeout, hresp, hf,
                Bool.not_false, Bool.and_false, Bool.false_eq_true, if_neg,
                specTimesOut]
              rw [if_neg (by simp [hf]), if_neg hnot]
              exact ihr.2.1 hresp
          · intro hinit
            simpa [waitForFundingWithTimeout, hinit] using ihr.2.2 hinit

/-- Responder channel used in the C4 witnesses. -/
def c4Responder : OpenChannel :=
  { isInitiator := false, fundingBroadcastHeight := 1000 }

/-- Initiator channel used in the C4 counterexample. -/
def c4Initiator : OpenChannel :=
  { isInitiator := true, fundingBroadcastHeight := 1000 }

/-- Whether a wait result is a funding confirmation or the shutdown result
— the only two endings the claim allows an initiator. -/
def WaitResult.isConfirmedOrShutdown : WaitResult → Bool
  | .confirmed _ => true
  | .shuttingDown => true
  | _ => false

/-- C4 counterexample: an initiator whose confirmation watcher exits
without a result (closing `confChan`) ends its wait in the generic
"waiting for funding confirmation failed" error — an ending that is
neither a confirmation nor the shutdown result, contradicting the claim
that the initiator's wait can end only in confirmation or shutdown. -/
theorem initiator_confWaitErr_cex :
    waitForFundingWithTimeout c4Initiator [.confWaitFailed] = .confWaitErr ∧
    (waitForFundingWithTimeout c4Initiator
        [.confWaitFailed]).isConfirmedOrShutdown = false := by
  decide

/-- Witness for C4 amended: a responder whose epoch stream reaches height
3016 (= 1000 + 2016) before any confirmation times out, while an initiator
fed the same trace keeps waiting. -/
theorem waitForFundingWithTimeout_spec_witness :
    waitForFundingWithTimeout c4Responder
        [.blockEpoch 3015, .blockEpoch 3016, .confirmed w1Scid]
      = .confirmationTimeout ∧
    waitForFundingWithTimeout c4Initiator [.blockEpoch 9999999]
      ≠ .confirmationTimeout := by
  have hev1 : ∀ h : Int, WaitEvent.blockEpoch h ∈
      [WaitEvent.blockEpoch 3015, WaitEvent.blockEpoch 3016,
        WaitEvent.confirmed w1Scid] → 0 ≤ h ∧ h < 2 ^ 31 := by
    intro h hm
    simp only [List.mem_cons, List.not_mem_nil, or_false] at hm
    rcases hm with hm | hm | hm
    · injection hm with hh
      subst hh
      exact ⟨by norm_num, by norm_num⟩
    · injection hm with hh
      subst hh
      exact ⟨by norm_num, by norm_num⟩
    · simp at hm
  have hev2 : ∀ h : Int, WaitEvent.blockEpoch h ∈
      [WaitEvent.blockEpoch 9999999] → 0 ≤ h ∧ h < 2 ^ 31 := by
    intro h hm
    simp only [List.mem_singleton] at hm
    injection hm with hh
    subst hh
    exact ⟨by norm_num, by norm_num⟩
  constructor
  · exact (waitForFundingWithTimeout_spec c4Responder
      [.blockEpoch 3015, .blockEpoch 3016, .confirmed w1Scid]
      (by decide) hev1).2.1 (by decide) |>.mpr (by decide)
  · exact ((waitForFundingWithTimeout_spec c4Initiator [.blockEpoch 9999999]
      (by decide) hev2).2.2 (by decide)).1

end FundingManager
